import Mathlib

/-
  Shallow embedding of src/ultimaker_logger.py.

  External library behaviour (HTTP via requests, XML parsing via
  xml.etree.ElementTree, datetime/pytz) is modelled by oracles supplied as
  inputs; everything this repository itself does is translated directly
  from the source.  Machine effects (the CSV log file, the Google Sheets
  mirror) become explicit values threaded through the functions.
-/

namespace UltimakerLogger

/-- CONFIG BATCH_SIZE (ultimaker_logger.py line 23): page size for the
paginated history requests. -/
def BATCH_SIZE : Nat := 50

/-- A raw print-job dictionary as reported by a device.  A field that is
absent from the dictionary is `none`; `job.get(k)` is the `Option` value and
`job.get(k, d)` is `Option.getD`. -/
structure Job where
  uuid : Option String := none
  result : Option String := none
  datetime_started : Option String := none
  datetime_finished : Option String := none
  name : Option String := none
  time_total : Option Int := none
  material_0_amount : Option Int := none
  material_1_amount : Option Int := none
  material_0_guid : Option String := none
  material_1_guid : Option String := none
deriving DecidableEq

/-- An entry of a history page: either a job dictionary or something that is
not a dictionary (skipped at ultimaker_logger.py line 129). -/
inductive JobEntry
  | dict (j : Job)
  | nonDict
deriving DecidableEq

/-- Result of `make_request` for a materials endpoint: the decoded JSON is
either a string (possibly holding XML) or any non-string value — the latter
includes the empty dict that `make_request` returns on a transport failure
(line 50). -/
inductive MatResp
  | nonStr
  | str (s : String)
deriving DecidableEq

/-- Oracle for `ET.fromstring` followed by `root.find(".//{ns}material")`
(lines 59-60): the parse can fail, the namespaced material element can be
missing, or it is present with an optional text payload (`Element.text` is
`None` for an empty element). -/
inductive XmlFind
  | parseError
  | noElement
  | element (text : Option String)
deriving DecidableEq

/-- A device, together with the behaviour of its HTTP endpoints.
`system_name` is the `name` field of the `/system` response (`none` when the
request failed, the response was not a dict, or the field was missing).
`history off = none` models a `history/print_jobs` response that is not a
list — including the empty dict produced by `make_request` on failure.
`material g` is the response to `materials/{g}`. -/
structure PrinterModel where
  ip : String
  system_name : Option String
  history : Nat → Option (List JobEntry)
  material : String → MatResp

/-- Oracle for the datetime library over an abstract datetime type `DT`.
`parse s` models `datetime.fromisoformat(s.replace("Z", "+00:00"))`, with
`none` when that call raises.  `date_isoformat` models
`dt.date().isoformat()` and `to_pst` models
`dt.astimezone(pytz.timezone("America/Los_Angeles")).isoformat()`. -/
structure TimeModel (DT : Type) where
  parse : String → Option DT
  date_isoformat : DT → String
  to_pst : DT → String

/-- `PrinterAPI.name` (lines 32-40): the reported name, or the synthetic
fallback derived from the address. -/
def printer_name (p : PrinterModel) : String :=
  match p.system_name with
  | some n => n
  | none => "Printer-" ++ p.ip

/-- The one Python exception this program can leak (see
`get_material_name`): calling `.strip()` on a `None` element text. -/
inductive PyError
  | attributeError
deriving DecidableEq

/-- `PrinterAPI.get_material_name` (lines 52-67).  The first component is the
returned string, or the exception that escapes; the second component records
whether a materials request was issued.  The inner `try` catches only
`ET.ParseError` and the outer one only `RequestException`, so the
`AttributeError` raised by `material_element.text.strip()` when the element
has no text propagates to the caller. -/
def get_material_name (xml : String → XmlFind) (p : PrinterModel)
    (material_guid : String) : Except PyError String × Bool :=
  if material_guid = "" then (Except.ok "Unknown", false)
  else
    match p.material material_guid with
    | MatResp.nonStr => (Except.ok "Unknown", true)
    | MatResp.str s =>
      match xml s with
      | XmlFind.parseError => (Except.ok "Unknown", true)
      | XmlFind.noElement => (Except.ok "Unknown", true)
      | XmlFind.element none => (Except.error PyError.attributeError, true)
      | XmlFind.element (some t) => (Except.ok t.trim, true)

/-- `UltimakerLogger._convert_to_pst` (lines 219-229): empty input yields
the empty string; a parse failure is caught and the original timestamp is
returned unchanged. -/
def convert_to_pst {DT : Type} (tm : TimeModel DT) (iso_timestamp : String) :
    String :=
  if iso_timestamp = "" then ""
  else
    match tm.parse iso_timestamp with
    | some dt => tm.to_pst dt
    | none => iso_timestamp

/-- Python truthiness of an optional string (`if job.get('datetime_started')`,
line 153): true exactly for a present, non-empty string. -/
def optTruthy : Option String → Bool
  | some s => s != ""
  | none => false

/-- The terminal-state test at line 142:
`job.get('result') in ['Finished', 'Aborted']`; a missing field gives `None`,
which is in neither. -/
def isTerminal : Option String → Bool
  | some r => r == "Finished" || r == "Aborted"
  | none => false

/-- The canonical record built at lines 157-170 and persisted. -/
structure CanonRecord where
  uuid : String
  printer_name : String
  date : String
  datetime_started : String
  datetime_finished : String
  name : String
  result : String
  time_total : Int
  material_0_amount : Int
  material_1_amount : Int
  material_0_name : String
  material_1_name : String
deriving DecidableEq

/-- The `start_date` computation of `_process_print_job` (lines 152-155):
`none` when `datetime.fromisoformat` raises on a truthy `datetime_started`
(which aborts the whole `try` block). -/
def start_date_opt {DT : Type} (tm : TimeModel DT) (job : Job) :
    Option String :=
  if optTruthy job.datetime_started then
    match tm.parse (job.datetime_started.getD "") with
    | some dt => some (tm.date_isoformat dt)
    | none => none
  else some ""

/-- `UltimakerLogger._process_print_job` (lines 139-173).  Skips non-terminal
results; the `try` block at line 150 turns any raised exception into `None`:
an unparseable non-empty `datetime_started` (line 154) and an
`AttributeError` escaping `get_material_name` (lines 168-169) both skip the
record.  `_convert_to_pst` never raises. -/
def process_print_job {DT : Type} (xml : String → XmlFind)
    (tm : TimeModel DT) (p : PrinterModel) (job : Job) : Option CanonRecord :=
  if isTerminal job.result then
    match start_date_opt tm job with
    | none => none
    | some start_date =>
      match (get_material_name xml p (job.material_0_guid.getD "")).1 with
      | Except.error _ => none
      | Except.ok m0 =>
        match (get_material_name xml p (job.material_1_guid.getD "")).1 with
        | Except.error _ => none
        | Except.ok m1 =>
          some {
            uuid := job.uuid.getD ""
            printer_name := printer_name p
            date := start_date
            datetime_started := convert_to_pst tm (job.datetime_started.getD "")
            datetime_finished := convert_to_pst tm (job.datetime_finished.getD "")
            name := job.name.getD ""
            result := job.result.getD ""
            time_total := job.time_total.getD 0
            material_0_amount := max 0 (job.material_0_amount.getD 0)
            material_1_amount := max 0 (job.material_1_amount.getD 0)
            material_0_name := m0
            material_1_name := m1 }
  else none

/-- The dedup membership test at line 127:
`job.get('uuid') not in self.existing_uuids` (here: the positive test).
`existing_uuids` is a set of strings, so a missing uuid (`None`) is never a
member. -/
def uuidKnown (u : Option String) (known : List String) : Bool :=
  match u with
  | some s => decide (s ∈ known)
  | none => false

/-- One step of the inner `for job in history` loop (lines 124-130):
normalize a dictionary entry, then append it unless its raw uuid is already
known. -/
def page_step {DT : Type} (xml : String → XmlFind) (tm : TimeModel DT)
    (known : List String) (p : PrinterModel) (acc : List CanonRecord)
    (e : JobEntry) : List CanonRecord :=
  match e with
  | JobEntry.dict j =>
    match process_print_job xml tm p j with
    | some rec => if uuidKnown j.uuid known then acc else acc ++ [rec]
    | none => acc
  | JobEntry.nonDict => acc

/-- The inner `for job in history` loop (lines 124-130) over a whole page. -/
def process_page {DT : Type} (xml : String → XmlFind) (tm : TimeModel DT)
    (known : List String) (p : PrinterModel) (page : List JobEntry)
    (acc : List CanonRecord) : List CanonRecord :=
  page.foldl (page_step xml tm known p) acc

/-- The per-device `while True` pagination loop (lines 117-134), made
structurally recursive on a fuel bound; `none` means the fuel ran out before
the loop stopped (the Python loop would still be running). -/
def device_loop {DT : Type} (xml : String → XmlFind) (tm : TimeModel DT)
    (known : List String) (p : PrinterModel) :
    Nat → Nat → List CanonRecord → Option (List CanonRecord)
  | 0, _, _ => none
  | fuel + 1, offset, acc =>
    match p.history offset with
    | none => some acc
    | some page =>
      let acc2 := process_page xml tm known p page acc
      if page.length < BATCH_SIZE then some acc2
      else device_loop xml tm known p fuel (offset + BATCH_SIZE) acc2

/-- The `for printer in self.printers` loop of `collect_logs`
(lines 112-134), accumulating `all_print_jobs` across devices. -/
def printers_loop {DT : Type} (xml : String → XmlFind) (tm : TimeModel DT)
    (known : List String) :
    List PrinterModel → Nat → List CanonRecord → Option (List CanonRecord)
  | [], _, acc => some acc
  | p :: ps, fuel, acc =>
    match device_loop xml tm known p fuel 0 acc with
    | none => none
    | some acc2 => printers_loop xml tm known ps fuel acc2

/-- The batch `all_print_jobs` that `collect_logs` builds before saving. -/
def collect_batch {DT : Type} (xml : String → XmlFind) (tm : TimeModel DT)
    (known : List String) (printers : List PrinterModel) (fuel : Nat) :
    Option (List CanonRecord) :=
  printers_loop xml tm known printers fuel []

/-- Specification-side reference for the dedup contract: the same sweep,
but collecting every normalized candidate record in encounter order with no
dedup check (spec section 4.3 speaks of the sequence of CanonicalJobRecord
candidates of the full pagination sweep). -/
def candidate_step {DT : Type} (xml : String → XmlFind) (tm : TimeModel DT)
    (p : PrinterModel) (acc : List CanonRecord) (e : JobEntry) :
    List CanonRecord :=
  match e with
  | JobEntry.dict j =>
    match process_print_job xml tm p j with
    | some rec => acc ++ [rec]
    | none => acc
  | JobEntry.nonDict => acc

/-- Specification-side reference: all candidates of one page, in order
(see `candidate_step`). -/
def candidate_page {DT : Type} (xml : String → XmlFind) (tm : TimeModel DT)
    (p : PrinterModel) (page : List JobEntry) (acc : List CanonRecord) :
    List CanonRecord :=
  page.foldl (candidate_step xml tm p) acc

/-- Specification-side reference: the pagination loop collecting all
candidates (see `candidate_page`). -/
def candidate_loop {DT : Type} (xml : String → XmlFind) (tm : TimeModel DT)
    (p : PrinterModel) :
    Nat → Nat → List CanonRecord → Option (List CanonRecord)
  | 0, _, _ => none
  | fuel + 1, offset, acc =>
    match p.history offset with
    | none => some acc
    | some page =>
      let acc2 := candidate_page xml tm p page acc
      if page.length < BATCH_SIZE then some acc2
      else candidate_loop xml tm p fuel (offset + BATCH_SIZE) acc2

/-- Specification-side reference: all candidate records of the sweep over
all devices, in encounter order (see `candidate_page`). -/
def candidates_loop {DT : Type} (xml : String → XmlFind) (tm : TimeModel DT) :
    List PrinterModel → Nat → List CanonRecord → Option (List CanonRecord)
  | [], _, acc => some acc
  | p :: ps, fuel, acc =>
    match candidate_loop xml tm p fuel 0 acc with
    | none => none
    | some acc2 => candidates_loop xml tm ps fuel acc2

/-- Specification-side reference: the full candidate sequence of one run. -/
def sweep_candidates {DT : Type} (xml : String → XmlFind) (tm : TimeModel DT)
    (printers : List PrinterModel) (fuel : Nat) :
    Option (List CanonRecord) :=
  candidates_loop xml tm printers fuel []

/-- The record a new batch row keeps only if its uuid is not in the known
set: the dedup filter predicate of spec section 4.3. -/
def newOnly (known : List String) (r : CanonRecord) : Bool :=
  decide (r.uuid ∉ known)

/-- A row of the CSV log / the spreadsheet. -/
abbrev Row := List String

/-- The fixed field list of `_save_jobs` (lines 176-180). -/
def fieldnames : List String :=
  ["uuid", "printer_name", "date", "datetime_started", "datetime_finished",
   "name", "result", "time_total", "material_0_amount",
   "material_1_amount", "material_0_name", "material_1_name"]

/-- A canonical record serialized in `fieldnames` order, as both
`csv.DictWriter.writerows` and the sheet upload emit it. -/
def row_of (r : CanonRecord) : Row :=
  [r.uuid, r.printer_name, r.date, r.datetime_started, r.datetime_finished,
   r.name, r.result, toString r.time_total, toString r.material_0_amount,
   toString r.material_1_amount, r.material_0_name, r.material_1_name]

/-- `UltimakerLogger._load_existing_uuids` (lines 98-107) on a file state
(`none` = the file does not exist).  `csv.DictReader` reads the first line
as the header; `row['uuid']` raises `KeyError` when the header has no
`uuid` column, which the `except` turns into the empty set; empty uuid
values are filtered out by `if row['uuid']`. -/
def load_existing_uuids (fs : Option (List Row)) : List String :=
  match fs with
  | none => []
  | some [] => []
  | some (hdr :: rows) =>
    match hdr.findIdx? (fun f => f == "uuid") with
    | none => []
    | some i => (rows.filterMap (fun r => r[i]?)).filter (fun s => s != "")

/-- `UltimakerLogger._update_google_sheets` (lines 199-217): best-effort
batch append of the rows; every exception is caught internally, so the
caller never observes a failure.  `sheetsFail` is the failure oracle. -/
def update_google_sheets (sheetsFail : Bool) (print_jobs : List CanonRecord) :
    List Row :=
  if sheetsFail then [] else print_jobs.map row_of

/-- Observable outcome of `_save_jobs`: the resulting log file state,
whether the sheets mirror was invoked, and what it appended. -/
structure SaveResult where
  fs : Option (List Row)
  mirror_attempted : Bool
  mirrored : List Row
deriving DecidableEq

/-- `UltimakerLogger._save_jobs` (lines 175-197).  `csvFail` models the CSV
open/write raising: the `except` at line 196 then skips the sheets call.
On success the file is created with a header when absent (line 187) and the
data rows are appended; only then is the mirror attempted. -/
def save_jobs (csvFail sheetsFail : Bool) (fs : Option (List Row))
    (print_jobs : List CanonRecord) : SaveResult :=
  if csvFail then { fs := fs, mirror_attempted := false, mirrored := [] }
  else
    { fs :=
        match fs with
        | none => some (fieldnames :: print_jobs.map row_of)
        | some lines => some (lines ++ print_jobs.map row_of)
      mirror_attempted := true
      mirrored := update_google_sheets sheetsFail print_jobs }

/-- Outcome of one `collect_logs` run: the batch and the sink outcome. -/
structure RunResult where
  batch : List CanonRecord
  save : SaveResult
deriving DecidableEq

/-- `UltimakerLogger.collect_logs` (lines 109-137) for a process whose
startup `_load_existing_uuids` saw the file state `fs`: build the batch over
all printers, then save only when the batch is non-empty (line 136). -/
def collect_logs {DT : Type} (xml : String → XmlFind) (tm : TimeModel DT)
    (printers : List PrinterModel) (fs : Option (List Row))
    (csvFail sheetsFail : Bool) (fuel : Nat) : Option RunResult :=
  match collect_batch xml tm (load_existing_uuids fs) printers fuel with
  | none => none
  | some batch =>
    if batch.isEmpty then
      some { batch := batch,
             save := { fs := fs, mirror_attempted := false, mirrored := [] } }
    else
      some { batch := batch, save := save_jobs csvFail sheetsFail fs batch }

/-! Concrete instances used to evaluate the development on closed inputs. -/

/-- An XML oracle on which every parse attempt fails. -/
def xml0 : String → XmlFind := fun _ => XmlFind.parseError

/-- An XML oracle that always finds a material element with no text,
modelling a document whose namespaced material element is empty. -/
def xmlE : String → XmlFind := fun _ => XmlFind.element none

/-- A datetime oracle on which every `fromisoformat` call raises. -/
def tm0 : TimeModel Unit :=
  { parse := fun _ => none
    date_isoformat := fun _ => ""
    to_pst := fun _ => "" }

/-- A finished job with uuid `u1` and no other reported fields. -/
def jW2 : Job := { uuid := some "u1", result := some "Finished" }

/-- A finished job whose dictionary has no `uuid` key at all. -/
def jN : Job := { result := some "Finished" }

/-- A finished job whose `datetime_started` cannot be parsed (under a
datetime oracle on which parsing fails, such as `tm0`). -/
def jBadTs : Job := { result := some "Finished", datetime_started := some "garbage" }

/-- A device whose history is a single page holding one finished job. -/
def PW2 : PrinterModel :=
  { ip := "10.0.0.1"
    system_name := none
    history := fun off => if off = 0 then some [JobEntry.dict jW2] else none
    material := fun _ => MatResp.nonStr }

/-- A device whose history is a single page holding one finished job that
carries no uuid. -/
def PN : PrinterModel :=
  { ip := "10.0.0.1"
    system_name := none
    history := fun off => if off = 0 then some [JobEntry.dict jN] else none
    material := fun _ => MatResp.nonStr }

/-- A device whose single history page reports the same finished job twice. -/
def PD : PrinterModel :=
  { ip := "10.0.0.1"
    system_name := none
    history := fun off => if off = 0 then some [JobEntry.dict jW2, JobEntry.dict jW2] else none
    material := fun _ => MatResp.nonStr }

/-- A device answering every materials request with a string payload. -/
def P7 : PrinterModel :=
  { ip := "10.0.0.7"
    system_name := none
    history := fun _ => none
    material := fun _ => MatResp.str "<material/>" }

/-- A device that returns two full pages of non-dictionary entries and then
an empty page at offset `2 * BATCH_SIZE`. -/
def P5 : PrinterModel :=
  { ip := "10.0.0.5"
    system_name := none
    history := fun off =>
      if off < 2 * BATCH_SIZE then some (List.replicate BATCH_SIZE JobEntry.nonDict)
      else some []
    material := fun _ => MatResp.nonStr }

/-- A device on which every history request fails (non-list response). -/
def PFail : PrinterModel :=
  { ip := "10.0.0.9"
    system_name := none
    history := fun _ => none
    material := fun _ => MatResp.nonStr }

/-- The canonical record produced for `jW2` on `PW2` under `xml0`/`tm0`. -/
def recW : CanonRecord :=
  { uuid := "u1", printer_name := "Printer-10.0.0.1", date := ""
    datetime_started := "", datetime_finished := "", name := ""
    result := "Finished", time_total := 0, material_0_amount := 0
    material_1_amount := 0, material_0_name := "Unknown"
    material_1_name := "Unknown" }

/-! ## Helper lemmas -/

/-- The terminal-state test succeeds exactly on `Finished` and `Aborted`. -/
theorem isTerminal_eq_true {o : Option String} :
    isTerminal o = true ↔ o = some "Finished" ∨ o = some "Aborted" := by
  cases o with
  | none => simp [isTerminal]
  | some r => simp [isTerminal]

/-- Shape of a successfully normalized record: the fields the dedup and
timestamp claims depend on, read off the record literal at lines 157-170. -/
theorem process_print_job_eq_some {DT : Type} {xml : String → XmlFind}
    {tm : TimeModel DT} {p : PrinterModel} {j : Job} {rec : CanonRecord}
    (h : process_print_job xml tm p j = some rec) :
    isTerminal j.result = true ∧ rec.uuid = j.uuid.getD "" ∧
    rec.result = j.result.getD "" ∧
    rec.datetime_started = convert_to_pst tm (j.datetime_started.getD "") ∧
    rec.datetime_finished = convert_to_pst tm (j.datetime_finished.getD "") := by
  unfold process_print_job at h
  by_cases ht : isTerminal j.result = true
  · rw [if_pos ht] at h
    split at h
    · exact absurd h (by simp)
    · split at h
      · exact absurd h (by simp)
      · split at h
        · exact absurd h (by simp)
        · rw [Option.some.injEq] at h
          subst h
          exact ⟨ht, rfl, rfl, rfl, rfl⟩
  · rw [if_neg ht] at h
    exact absurd h (by simp)

/-- One dedup-loop step only ever appends to the accumulator. -/
theorem page_step_append {DT : Type} (xml : String → XmlFind)
    (tm : TimeModel DT) (known : List String) (p : PrinterModel)
    (acc : List CanonRecord) (e : JobEntry) :
    page_step xml tm known p acc e = acc ++ page_step xml tm known p [] e := by
  cases e with
  | nonDict => simp [page_step]
  | dict j =>
    simp only [page_step]
    cases process_print_job xml tm p j with
    | none => simp
    | some rec =>
      by_cases hk : uuidKnown j.uuid known = true
      · simp [hk]
      · simp [hk]

/-- One candidate-loop step only ever appends to the accumulator. -/
theorem candidate_step_append {DT : Type} (xml : String → XmlFind)
    (tm : TimeModel DT) (p : PrinterModel)
    (acc : List CanonRecord) (e : JobEntry) :
    candidate_step xml tm p acc e = acc ++ candidate_step xml tm p [] e := by
  cases e with
  | nonDict => simp [candidate_step]
  | dict j =>
    simp only [candidate_step]
    cases process_print_job xml tm p j with
    | none => simp
    | some rec => simp

/-- The dedup loop over a page only appends to the accumulator. -/
theorem process_page_append {DT : Type} (xml : String → XmlFind)
    (tm : TimeModel DT) (known : List String) (p : PrinterModel) :
    ∀ (page : List JobEntry) (acc : List CanonRecord),
      process_page xml tm known p page acc
        = acc ++ process_page xml tm known p page [] := by
  intro page
  induction page with
  | nil => intro acc; simp [process_page]
  | cons e es ih =>
    intro acc
    show process_page xml tm known p es (page_step xml tm known p acc e)
      = acc ++ process_page xml tm known p es (page_step xml tm known p [] e)
    rw [ih (page_step xml tm known p acc e),
        ih (page_step xml tm known p [] e),
        page_step_append xml tm known p acc e, List.append_assoc]

/-- The candidate loop over a page only appends to the accumulator. -/
theorem candidate_page_append {DT : Type} (xml : String → XmlFind)
    (tm : TimeModel DT) (p : PrinterModel) :
    ∀ (page : List JobEntry) (acc : List CanonRecord),
      candidate_page xml tm p page acc
        = acc ++ candidate_page xml tm p page [] := by
  intro page
  induction page with
  | nil => intro acc; simp [candidate_page]
  | cons e es ih =>
    intro acc
    show candidate_page xml tm p es (candidate_step xml tm p acc e)
      = acc ++ candidate_page xml tm p es (candidate_step xml tm p [] e)
    rw [ih (candidate_step xml tm p acc e),
        ih (candidate_step xml tm p [] e),
        candidate_step_append xml tm p acc e, List.append_assoc]

/-- On a normalized record, the code dedup test (on the raw uuid) agrees
with the spec dedup predicate (on the canonical uuid), provided the known
set holds no empty string — which `load_existing_uuids` guarantees. -/
theorem uuidKnown_eq_newOnly {DT : Type} {xml : String → XmlFind}
    {tm : TimeModel DT} {p : PrinterModel} {j : Job} {rec : CanonRecord}
    {known : List String} (hs : ("" : String) ∉ known)
    (h : process_print_job xml tm p j = some rec) :
    newOnly known rec = !(uuidKnown j.uuid known) := by
  have huu : rec.uuid = j.uuid.getD "" := (process_print_job_eq_some h).2.1
  cases hju : j.uuid with
  | none =>
    simp only [uuidKnown, hju, newOnly, huu, Option.getD]
    simp [hs]
  | some s =>
    simp only [uuidKnown, hju, newOnly, huu, Option.getD]
    by_cases hm : s ∈ known
    · simp [hm]
    · simp [hm]

/-- One step of the dedup loop computes the filtered step of the candidate
loop. -/
theorem page_step_filter {DT : Type} {xml : String → XmlFind}
    {tm : TimeModel DT} {p : PrinterModel} {known : List String}
    (hs : ("" : String) ∉ known) (cacc : List CanonRecord) (e : JobEntry) :
    page_step xml tm known p (cacc.filter (newOnly known)) e
      = (candidate_step xml tm p cacc e).filter (newOnly known) := by
  cases e with
  | nonDict => simp [page_step, candidate_step]
  | dict j =>
    simp only [page_step, candidate_step]
    cases hp : process_print_job xml tm p j with
    | none => simp
    | some rec =>
      have key := uuidKnown_eq_newOnly hs hp
      cases hk : uuidKnown j.uuid known with
      | true =>
        rw [hk] at key
        simp [List.filter_append, List.filter_cons, key]
      | false =>
        rw [hk] at key
        simp [List.filter_append, List.filter_cons, key]

/-- The dedup loop over a page computes the filtered candidate page. -/
theorem process_page_filter {DT : Type} {xml : String → XmlFind}
    {tm : TimeModel DT} {p : PrinterModel} {known : List String}
    (hs : ("" : String) ∉ known) :
    ∀ (page : List JobEntry) (cacc : List CanonRecord),
      process_page xml tm known p page (cacc.filter (newOnly known))
        = (candidate_page xml tm p page cacc).filter (newOnly known) := by
  intro page
  induction page with
  | nil => intro cacc; simp [process_page, candidate_page]
  | cons e es ih =>
    intro cacc
    show process_page xml tm known p es
        (page_step xml tm known p (cacc.filter (newOnly known)) e)
      = (candidate_page xml tm p es (candidate_step xml tm p cacc e)).filter
          (newOnly known)
    rw [page_step_filter hs cacc e, ih (candidate_step xml tm p cacc e)]

/-- The fueled pagination loop computes the filtered candidate loop. -/
theorem device_loop_filter {DT : Type} {xml : String → XmlFind}
    {tm : TimeModel DT} {p : PrinterModel} {known : List String}
    (hs : ("" : String) ∉ known) :
    ∀ (fuel offset : Nat) (cacc : List CanonRecord),
      device_loop xml tm known p fuel offset (cacc.filter (newOnly known))
        = (candidate_loop xml tm p fuel offset cacc).map
            (fun l => l.filter (newOnly known)) := by
  intro fuel
  induction fuel with
  | zero => intro offset cacc; simp [device_loop, candidate_loop]
  | succ fuel ih =>
    intro offset cacc
    simp only [device_loop, candidate_loop]
    cases hh : p.history offset with
    | none => simp
    | some page =>
      simp only [process_page_filter hs page cacc]
      by_cases hlen : page.length < BATCH_SIZE
      · rw [if_pos hlen, if_pos hlen]
        simp
      · rw [if_neg hlen, if_neg hlen]
        exact ih (offset + BATCH_SIZE) (candidate_page xml tm p page cacc)

/-- The loop over all printers computes the filtered candidates loop. -/
theorem printers_loop_filter {DT : Type} {xml : String → XmlFind}
    {tm : TimeModel DT} {known : List String}
    (hs : ("" : String) ∉ known) :
    ∀ (printers : List PrinterModel) (fuel : Nat) (cacc : List CanonRecord),
      printers_loop xml tm known printers fuel (cacc.filter (newOnly known))
        = (candidates_loop xml tm printers fuel cacc).map
            (fun l => l.filter (newOnly known)) := by
  intro printers
  induction printers with
  | nil => intro fuel cacc; simp [printers_loop, candidates_loop]
  | cons p ps ih =>
    intro fuel cacc
    simp only [printers_loop, candidates_loop]
    rw [device_loop_filter hs fuel 0 cacc]
    cases hcl : candidate_loop xml tm p fuel 0 cacc with
    | none => simp
    | some c2 =>
      simp only [Option.map_some']
      exact ih fuel c2

/-- The batch of one run is exactly the candidate sequence of the sweep,
filtered to the uuids outside the known set, in encounter order. -/
theorem collect_batch_eq_filter {DT : Type} {xml : String → XmlFind}
    {tm : TimeModel DT} {known : List String}
    (hs : ("" : String) ∉ known)
    (printers : List PrinterModel) (fuel : Nat) :
    collect_batch xml tm known printers fuel
      = (sweep_candidates xml tm printers fuel).map
          (fun l => l.filter (newOnly known)) := by
  have h := @printers_loop_filter DT xml tm known hs printers fuel []
  simpa [collect_batch, sweep_candidates] using h

/-- The uuid column is the first column of the declared header. -/
theorem fieldnames_uuid_idx :
    fieldnames.findIdx? (fun f => f == "uuid") = some 0 := rfl

/-- The startup known-id set never holds the empty string, because
`_load_existing_uuids` keeps only truthy uuid values. -/
theorem empty_not_mem_load (fs : Option (List Row)) :
    ("" : String) ∉ load_existing_uuids fs := by
  cases fs with
  | none => simp [load_existing_uuids]
  | some lines =>
    cases lines with
    | nil => simp [load_existing_uuids]
    | cons hdr rows =>
      simp only [load_existing_uuids]
      cases hdr.findIdx? (fun f => f == "uuid") with
      | none => simp
      | some i =>
        intro hmem
        have := (List.mem_filter.mp hmem).2
        simp at this

/-- Loading a log written with the standard header splits over appended
rows. -/
theorem load_written_append (rows extra : List Row) :
    load_existing_uuids (some (fieldnames :: (rows ++ extra)))
      = load_existing_uuids (some (fieldnames :: rows))
        ++ (extra.filterMap (fun r => r[0]?)).filter (fun s => s != "") := by
  simp [load_existing_uuids, fieldnames_uuid_idx, List.filterMap_append,
        List.filter_append]

/-- A record of the saved batch with a non-empty uuid lands in the uuid set
loaded from its own serialized rows. -/
theorem uuid_mem_load_rows {b : List CanonRecord} {r : CanonRecord}
    (hr : r ∈ b) (hne : r.uuid ≠ "") :
    r.uuid ∈ ((b.map row_of).filterMap (fun row => row[0]?)).filter
        (fun s => s != "") := by
  refine List.mem_filter.mpr ⟨?_, by simpa [bne_iff_ne] using hne⟩
  refine List.mem_filterMap.mpr ⟨row_of r, List.mem_map_of_mem row_of hr, ?_⟩
  simp [row_of]

/-- Every record collected from one candidate page was in the accumulator
or came from normalizing a dictionary entry of that page. -/
theorem mem_candidate_page {DT : Type} {xml : String → XmlFind}
    {tm : TimeModel DT} {p : PrinterModel} {r : CanonRecord} :
    ∀ (page : List JobEntry) (acc : List CanonRecord),
      r ∈ candidate_page xml tm p page acc →
      r ∈ acc ∨ ∃ j, JobEntry.dict j ∈ page ∧
        process_print_job xml tm p j = some r := by
  intro page
  induction page with
  | nil => intro acc h; exact Or.inl (by simpa [candidate_page] using h)
  | cons e es ih =>
    intro acc h
    have h2 : r ∈ candidate_page xml tm p es (candidate_step xml tm p acc e) := h
    rcases ih (candidate_step xml tm p acc e) h2 with hstep | ⟨j, hj, hproc⟩
    · cases e with
      | nonDict => exact Or.inl hstep
      | dict j =>
        revert hstep
        simp only [candidate_step]
        cases hp : process_print_job xml tm p j with
        | none => exact fun hstep => Or.inl hstep
        | some rec =>
          intro hstep
          rcases List.mem_append.mp hstep with ha | hb
          · exact Or.inl ha
          · refine Or.inr ⟨j, List.mem_cons_self _ _, ?_⟩
            rw [hp]
            have : r = rec := by simpa using hb
            rw [this]
    · exact Or.inr ⟨j, List.mem_cons_of_mem _ hj, hproc⟩

/-- Every record collected by the candidate pagination loop was in the
accumulator or came from some fetched page of the device. -/
theorem mem_candidate_loop {DT : Type} {xml : String → XmlFind}
    {tm : TimeModel DT} {p : PrinterModel} {r : CanonRecord} :
    ∀ (fuel offset : Nat) (acc res : List CanonRecord),
      candidate_loop xml tm p fuel offset acc = some res → r ∈ res →
      r ∈ acc ∨ ∃ off2 page j, p.history off2 = some page ∧
        JobEntry.dict j ∈ page ∧ process_print_job xml tm p j = some r := by
  intro fuel
  induction fuel with
  | zero => intro offset acc res h; exact absurd h (by simp [candidate_loop])
  | succ fuel ih =>
    intro offset acc res h hr
    simp only [candidate_loop] at h
    split at h
    case h_1 hh =>
      have : acc = res := by simpa using h
      exact Or.inl (this ▸ hr)
    case h_2 page hh =>
      split at h
      case isTrue hlen =>
        have : candidate_page xml tm p page acc = res := by simpa using h
        rcases mem_candidate_page page acc (this ▸ hr) with ha | ⟨j, hj, hp2⟩
        · exact Or.inl ha
        · exact Or.inr ⟨offset, page, j, hh, hj, hp2⟩
      case isFalse hlen =>
        rcases ih (offset + BATCH_SIZE) (candidate_page xml tm p page acc)
            res h hr with ha | hb
        · rcases mem_candidate_page page acc ha with ha2 | ⟨j, hj, hp2⟩
          · exact Or.inl ha2
          · exact Or.inr ⟨offset, page, j, hh, hj, hp2⟩
        · exact Or.inr hb

/-- Every candidate of the sweep came from some device in the list. -/
theorem mem_candidates_loop {DT : Type} {xml : String → XmlFind}
    {tm : TimeModel DT} {r : CanonRecord} :
    ∀ (printers : List PrinterModel) (fuel : Nat)
      (acc res : List CanonRecord),
      candidates_loop xml tm printers fuel acc = some res → r ∈ res →
      r ∈ acc ∨ ∃ p, p ∈ printers ∧ ∃ off2 page j,
        p.history off2 = some page ∧ JobEntry.dict j ∈ page ∧
        process_print_job xml tm p j = some r := by
  intro printers
  induction printers with
  | nil =>
    intro fuel acc res h hr
    have : acc = res := by simpa [candidates_loop] using h
    exact Or.inl (this ▸ hr)
  | cons p ps ih =>
    intro fuel acc res h hr
    simp only [candidates_loop] at h
    revert h
    cases hcl : candidate_loop xml tm p fuel 0 acc with
    | none => intro h; exact absurd h (by simp)
    | some c2 =>
      intro h
      rcases ih fuel c2 res h hr with ha | ⟨p2, hp2, rest⟩
      · rcases mem_candidate_loop fuel 0 acc c2 hcl ha with ha2 | hb2
        · exact Or.inl ha2
        · exact Or.inr ⟨p, List.mem_cons_self _ _, hb2⟩
      · exact Or.inr ⟨p2, List.mem_cons_of_mem _ hp2, rest⟩

/-- Every candidate of the full sweep traces back to a raw job reported by
one of the devices. -/
theorem mem_sweep_candidates {DT : Type} {xml : String → XmlFind}
    {tm : TimeModel DT} {r : CanonRecord} {printers : List PrinterModel}
    {fuel : Nat} {c : List CanonRecord}
    (h : sweep_candidates xml tm printers fuel = some c) (hr : r ∈ c) :
    ∃ p, p ∈ printers ∧ ∃ off2 page j,
      p.history off2 = some page ∧ JobEntry.dict j ∈ page ∧
      process_print_job xml tm p j = some r := by
  rcases mem_candidates_loop printers fuel [] c h hr with ha | hb
  · exact absurd ha (by simp)
  · exact hb

/-- The pagination loop only appends to the batch it is handed. -/
theorem device_loop_prefix {DT : Type} {xml : String → XmlFind}
    {tm : TimeModel DT} {known : List String} {p : PrinterModel} :
    ∀ (fuel offset : Nat) (acc b : List CanonRecord),
      device_loop xml tm known p fuel offset acc = some b →
      ∃ t, b = acc ++ t := by
  intro fuel
  induction fuel with
  | zero => intro offset acc b h; exact absurd h (by simp [device_loop])
  | succ fuel ih =>
    intro offset acc b h
    simp only [device_loop] at h
    split at h
    case h_1 hh =>
      exact ⟨[], by simpa using h.symm⟩
    case h_2 page hh =>
      split at h
      case isTrue hlen =>
        refine ⟨process_page xml tm known p page [], ?_⟩
        rw [← process_page_append]
        simpa using h.symm
      case isFalse hlen =>
        rcases ih (offset + BATCH_SIZE)
            (process_page xml tm known p page acc) b h with ⟨t, ht⟩
        refine ⟨process_page xml tm known p page [] ++ t, ?_⟩
        rw [ht, process_page_append, List.append_assoc]

/-- If the device serves a short page `n` pages ahead, the pagination loop
finishes within `n + 1` iterations: fuel `n + 1` never runs out. -/
theorem device_loop_short_terminates {DT : Type} {xml : String → XmlFind}
    {tm : TimeModel DT} {known : List String} {p : PrinterModel} :
    ∀ (n offset : Nat) (acc : List CanonRecord) (page : List JobEntry),
      p.history (offset + n * BATCH_SIZE) = some page →
      page.length < BATCH_SIZE →
      device_loop xml tm known p (n + 1) offset acc ≠ none := by
  intro n
  induction n with
  | zero =>
    intro offset acc page hh hlen
    simp only [Nat.zero_mul, Nat.add_zero] at hh
    simp [device_loop, hh, hlen]
  | succ n ih =>
    intro offset acc page hh hlen
    have harith : offset + (n + 1) * BATCH_SIZE
        = (offset + BATCH_SIZE) + n * BATCH_SIZE := by ring
    rw [harith] at hh
    simp only [device_loop]
    split
    case h_1 hh0 => simp
    case h_2 page0 hh0 =>
      split
      case isTrue hlen0 => simp
      case isFalse hlen0 =>
        exact ih (offset + BATCH_SIZE)
          (process_page xml tm known p page0 acc) page hh hlen

/-- The loop over all printers only appends to the combined batch it is
handed: records from previously processed devices are never dropped. -/
theorem printers_loop_prefix {DT : Type} {xml : String → XmlFind}
    {tm : TimeModel DT} {known : List String} :
    ∀ (printers : List PrinterModel) (fuel : Nat)
      (acc b : List CanonRecord),
      printers_loop xml tm known printers fuel acc = some b →
      ∃ t, b = acc ++ t := by
  intro printers
  induction printers with
  | nil =>
    intro fuel acc b h
    exact ⟨[], by simpa [printers_loop] using h.symm⟩
  | cons p ps ih =>
    intro fuel acc b h
    simp only [printers_loop] at h
    split at h
    case h_1 => exact absurd h (by simp)
    case h_2 acc2 heq =>
      rcases device_loop_prefix fuel 0 acc acc2 heq with ⟨t1, ht1⟩
      rcases ih fuel acc2 b h with ⟨t2, ht2⟩
      exact ⟨t1 ++ t2, by rw [ht2, ht1, List.append_assoc]⟩

/-! ## Claim theorems -/

/-- C1: in every run, the batch `collect_logs` passes to the sink is exactly
the subsequence of normalized candidate records whose uuid is not in the
known-id set loaded from the durable log at startup, in encounter order; in
particular every canonical record whose uuid is in that set is excluded. -/
theorem dedup_excludes_known_uuids {DT : Type} (xml : String → XmlFind)
    (tm : TimeModel DT) (fs : Option (List Row))
    (printers : List PrinterModel) (fuel : Nat) :
    collect_batch xml tm (load_existing_uuids fs) printers fuel
      = (sweep_candidates xml tm printers fuel).map
          (fun l => l.filter (newOnly (load_existing_uuids fs))) :=
  collect_batch_eq_filter (empty_not_mem_load fs) printers fuel

/-- C3 counterexample: a device that reports the same finished job (uuid
`u1`) twice in one page, against an absent log, yields a sink batch whose
uuid sequence has a duplicate — two output records of one run share a
uuid. -/
theorem duplicate_uuid_in_one_sweep :
    (collect_logs xml0 tm0 [PD] none false false 1).map
        (fun out => decide (out.batch.map (fun r => r.uuid)).Nodup)
      = some false := by decide

/-- C3 amended: no two records of the sink batch share a uuid provided no
uuid is reported twice during the sweep, i.e. the candidate records of the
sweep already have pairwise distinct uuids; the run itself maintains no
in-run seen-set. -/
theorem batch_uuids_nodup_of_distinct_candidates {DT : Type}
    {xml : String → XmlFind} {tm : TimeModel DT}
    {printers : List PrinterModel} {fs : Option (List Row)} {fuel : Nat}
    {c b : List CanonRecord}
    (hc : sweep_candidates xml tm printers fuel = some c)
    (hnd : (c.map (fun r => r.uuid)).Nodup)
    (hb : collect_batch xml tm (load_existing_uuids fs) printers fuel
        = some b) :
    (b.map (fun r => r.uuid)).Nodup := by
  rw [collect_batch_eq_filter (empty_not_mem_load fs), hc] at hb
  have hbe : b = c.filter (newOnly (load_existing_uuids fs)) := by
    simpa using hb.symm
  rw [hbe]
  exact List.Nodup.sublist
    (List.Sublist.map (fun r => r.uuid) (List.filter_sublist c)) hnd

/-- Witness for the amended C3 theorem on a concrete one-device run. -/
theorem batch_uuids_nodup_witness :
    (([recW] : List CanonRecord).map (fun r => r.uuid)).Nodup :=
  @batch_uuids_nodup_of_distinct_candidates Unit xml0 tm0 [PW2] none 1
    [recW] [recW] rfl (by decide) rfl

/-- C4: a raw job whose result is neither Finished nor Aborted (including a
missing result) normalizes to nothing, and every record of the batch passed
to the sink carries a terminal result. -/
theorem nonterminal_jobs_skipped {DT : Type} (xml : String → XmlFind)
    (tm : TimeModel DT) :
    (∀ (p : PrinterModel) (j : Job), isTerminal j.result = false →
        process_print_job xml tm p j = none) ∧
    (∀ (printers : List PrinterModel) (fs : Option (List Row))
        (csvFail sheetsFail : Bool) (fuel : Nat) (out : RunResult),
        collect_logs xml tm printers fs csvFail sheetsFail fuel = some out →
        ∀ r ∈ out.batch, r.result = "Finished" ∨ r.result = "Aborted") := by
  constructor
  · intro p j h
    unfold process_print_job
    rw [if_neg (by simp [h])]
  · intro printers fs csvF shF fuel out hout r hr
    unfold collect_logs at hout
    rw [collect_batch_eq_filter (empty_not_mem_load fs)] at hout
    cases hsc : sweep_candidates xml tm printers fuel with
    | none => rw [hsc] at hout; exact absurd hout (by simp)
    | some cand =>
      rw [hsc] at hout
      simp only [Option.map_some'] at hout
      have hbatch : out.batch
          = cand.filter (newOnly (load_existing_uuids fs)) := by
        split at hout <;>
          (rw [Option.some.injEq] at hout; rw [← hout])
      rw [hbatch] at hr
      have hrc : r ∈ cand := (List.mem_filter.mp hr).1
      obtain ⟨p, hp, off2, page, j, hhist, hj, hproc⟩ :=
        mem_sweep_candidates hsc hrc
      obtain ⟨ht, _, hres, _⟩ := process_print_job_eq_some hproc
      rcases isTerminal_eq_true.mp ht with hFin | hAb
      · exact Or.inl (by rw [hres, hFin]; rfl)
      · exact Or.inr (by rw [hres, hAb]; rfl)

/-- Witness for C4 on a concrete in-progress job. -/
theorem nonterminal_jobs_skipped_witness :
    process_print_job xml0 tm0 PW2 ({ result := some "Printing" } : Job)
      = none :=
  (nonterminal_jobs_skipped xml0 tm0).1 PW2
    ({ result := some "Printing" } : Job) (by decide)

/-- C5: if the device serves a page shorter than `BATCH_SIZE` at offset
`n * BATCH_SIZE`, the pagination loop terminates within `n + 1` iterations;
moreover each iteration fetches the page at the current offset and either
stops there (page shorter than the requested size, the empty page included)
or advances the offset by exactly `BATCH_SIZE`. -/
theorem pagination_terminates_on_short_page {DT : Type}
    (xml : String → XmlFind) (tm : TimeModel DT) (known : List String)
    (p : PrinterModel) (n : Nat) (page : List JobEntry)
    (h : p.history (n * BATCH_SIZE) = some page)
    (hshort : page.length < BATCH_SIZE) :
    (∀ acc, device_loop xml tm known p (n + 1) 0 acc ≠ none) ∧
    (∀ (fuel offset : Nat) (acc : List CanonRecord) (pg : List JobEntry),
        p.history offset = some pg →
        (pg.length < BATCH_SIZE →
          device_loop xml tm known p (fuel + 1) offset acc
            = some (process_page xml tm known p pg acc)) ∧
        (¬ pg.length < BATCH_SIZE →
          device_loop xml tm known p (fuel + 1) offset acc
            = device_loop xml tm known p fuel (offset + BATCH_SIZE)
                (process_page xml tm known p pg acc))) := by
  constructor
  · intro acc
    exact device_loop_short_terminates n 0 acc page (by simpa using h) hshort
  · intro fuel offset acc pg hpg
    constructor
    · intro hlen
      simp [device_loop, hpg, hlen]
    · intro hlen
      simp [device_loop, hpg, hlen]

/-- Witness for C5: a device serving two full pages and then an empty page
at offset `2 * BATCH_SIZE` is drained without exhausting fuel `3`. -/
theorem pagination_terminates_witness :
    device_loop xml0 tm0 [] P5 3 0 [] ≠ none :=
  (pagination_terminates_on_short_page xml0 tm0 [] P5 2 [] (by decide)
    (by decide)).1 []

/-- C6: when the local CSV append raises, the remote mirror is not
attempted for that batch; when the local append succeeded, the mirror is
attempted and a mirror failure leaves the already-appended local log exactly
as a successful mirror would. -/
theorem mirror_only_after_local_append (fs : Option (List Row))
    (jobs : List CanonRecord) :
    (∀ sheetsFail,
        (save_jobs true sheetsFail fs jobs).mirror_attempted = false) ∧
    (∀ sheetsFail,
        (save_jobs false sheetsFail fs jobs).mirror_attempted = true ∧
        (save_jobs false sheetsFail fs jobs).fs
          = (save_jobs false false fs jobs).fs) := by
  constructor
  · intro sf; simp [save_jobs]
  · intro sf; exact ⟨by simp [save_jobs], by simp [save_jobs]⟩

/-- C7 (code bug): on a device whose materials endpoint returns a string
payload in which the namespaced material element is present but empty,
`get_material_name` raises `AttributeError` from
`material_element.text.strip()` instead of returning Unknown — the claim
says it must never raise. -/
theorem material_name_empty_element_raises :
    get_material_name xmlE P7 "g"
      = (Except.error PyError.attributeError, true) := rfl

/-- C9: a save against an absent log creates the file with exactly one
header row followed by the data rows; a save against an existing log leaves
every prior line unchanged and appends only data rows; a run that collects
zero new records leaves the log untouched and mirrors nothing. -/
theorem save_creates_header_once (jobs : List CanonRecord) :
    (jobs ≠ [] → ∀ sheetsFail,
        (save_jobs false sheetsFail none jobs).fs
          = some (fieldnames :: jobs.map row_of)) ∧
    (∀ sheetsFail (lines : List Row),
        (save_jobs false sheetsFail (some lines) jobs).fs
          = some (lines ++ jobs.map row_of)) ∧
    (∀ {DT : Type} (xml : String → XmlFind) (tm : TimeModel DT)
        (printers : List PrinterModel) (fs : Option (List Row))
        (csvFail sheetsFail : Bool) (fuel : Nat) (out : RunResult),
        collect_logs xml tm printers fs csvFail sheetsFail fuel = some out →
        out.batch = [] →
        out.save.fs = fs ∧ out.save.mirror_attempted = false ∧
          out.save.mirrored = []) := by
  refine ⟨?_, ?_, ?_⟩
  · intro hne sf; simp [save_jobs]
  · intro sf lines; simp [save_jobs]
  · intro DT xml tm printers fs csvF shF fuel out hout hempty
    unfold collect_logs at hout
    split at hout
    case h_1 => exact absurd hout (by simp)
    case h_2 batch hcb =>
      split at hout
      case isTrue hb =>
        rw [Option.some.injEq] at hout
        rw [← hout]
        exact ⟨rfl, rfl, rfl⟩
      case isFalse hb =>
        rw [Option.some.injEq] at hout
        rw [← hout] at hempty
        simp at hempty
        rw [hempty] at hb
        exact absurd rfl hb

/-- Witness for C9 on a concrete one-record batch against an absent log. -/
theorem save_creates_header_once_witness :
    (save_jobs false false none [recW]).fs
      = some (fieldnames :: [recW].map row_of) :=
  (save_creates_header_once [recW]).1 (by decide) false

/-- C10: a failed or non-list page response ends that device's pagination
loop but returns the accumulated batch as-is; the loop only ever appends to
the batch it is handed (so records accepted earlier, from earlier pages or
earlier devices, survive); and a non-empty combined batch is always handed
to the sink at the end of the run. -/
theorem midsweep_failure_keeps_collected {DT : Type}
    (xml : String → XmlFind) (tm : TimeModel DT) (known : List String)
    (p : PrinterModel) (off : Nat) (hf : p.history off = none) :
    (∀ fuel acc, device_loop xml tm known p (fuel + 1) off acc = some acc) ∧
    (∀ (fuel offset : Nat) (acc b : List CanonRecord),
        device_loop xml tm known p fuel offset acc = some b →
        ∃ t, b = acc ++ t) ∧
    (∀ (printers : List PrinterModel) (fuel : Nat)
        (acc b : List CanonRecord),
        printers_loop xml tm known printers fuel acc = some b →
        ∃ t, b = acc ++ t) ∧
    (∀ (printers : List PrinterModel) (fs : Option (List Row))
        (csvFail sheetsFail : Bool) (fuel : Nat) (out : RunResult),
        collect_logs xml tm printers fs csvFail sheetsFail fuel = some out →
        out.batch ≠ [] →
        out.save = save_jobs csvFail sheetsFail fs out.batch) := by
  refine ⟨?_, ?_, ?_, ?_⟩
  · intro fuel acc; simp [device_loop, hf]
  · intro fuel offset acc b h
    exact device_loop_prefix fuel offset acc b h
  · intro printers fuel acc b h
    exact printers_loop_prefix printers fuel acc b h
  · intro printers fs csvF shF fuel out hout hne
    unfold collect_logs at hout
    split at hout
    case h_1 => exact absurd hout (by simp)
    case h_2 batch hcb =>
      split at hout
      case isTrue hb =>
        rw [Option.some.injEq] at hout
        rw [← hout] at hne
        simp at hne
        exact absurd (List.isEmpty_iff.mp hb) hne
      case isFalse hb =>
        rw [Option.some.injEq] at hout
        rw [← hout]

/-- Witness for C10: a device that fails immediately hands back the batch
accumulated so far. -/
theorem midsweep_failure_keeps_collected_witness :
    device_loop xml0 tm0 [] PFail 1 0 [recW] = some [recW] :=
  (midsweep_failure_keeps_collected xml0 tm0 [] PFail 0 rfl).1 0 [recW]

/-- Whether normalization produces a record depends only on the result, the
start timestamp and the material guids — not on the finish timestamp. -/
theorem process_print_job_isSome_congr {DT : Type} (xml : String → XmlFind)
    (tm : TimeModel DT) (p : PrinterModel) (j1 j2 : Job)
    (h1 : j1.result = j2.result)
    (h2 : j1.datetime_started = j2.datetime_started)
    (h3 : j1.material_0_guid = j2.material_0_guid)
    (h4 : j1.material_1_guid = j2.material_1_guid) :
    (process_print_job xml tm p j1).isSome
      = (process_print_job xml tm p j2).isSome := by
  have hs : start_date_opt tm j1 = start_date_opt tm j2 := by
    unfold start_date_opt
    rw [h2]
  unfold process_print_job
  rw [h1, hs, h3, h4]
  by_cases ht : isTerminal j2.result = true
  · rw [if_pos ht, if_pos ht]
    cases start_date_opt tm j2 with
    | none => rfl
    | some sd =>
      cases (get_material_name xml p (j2.material_0_guid.getD "")).1 with
      | error e => rfl
      | ok m0 =>
        cases (get_material_name xml p (j2.material_1_guid.getD "")).1 with
        | error e => rfl
        | ok m1 => rfl
  · rw [if_neg ht, if_neg ht]

/-- C8 counterexample: a finished job whose non-empty `datetime_started`
cannot be parsed is skipped entirely by the normalizer — the unparseable
timestamp is not passed through, it fails the whole record. -/
theorem unparseable_start_skips_record :
    process_print_job xml0 tm0 PW2 jBadTs = none := rfl

/-- C8 amended: an empty start or finish timestamp reaches the canonical
record as the empty string; an unparseable non-empty timestamp survives
`_convert_to_pst` unchanged (the original string, not the empty string);
the finish timestamp never decides whether a record is skipped; an empty or
absent start timestamp never skips the record either (whenever the
timestamp-independent skip causes — non-terminal result, a raising material
lookup — are absent, the record is produced); but an unparseable non-empty
start timestamp does skip the whole record. -/
theorem timestamp_passthrough {DT : Type} (tm : TimeModel DT) :
    (convert_to_pst tm "" = "") ∧
    (∀ s, s ≠ "" → tm.parse s = none → convert_to_pst tm s = s) ∧
    (∀ (xml : String → XmlFind) (p : PrinterModel) (j : Job)
        (rec : CanonRecord), process_print_job xml tm p j = some rec →
        rec.datetime_started = convert_to_pst tm (j.datetime_started.getD "") ∧
        rec.datetime_finished
          = convert_to_pst tm (j.datetime_finished.getD "")) ∧
    (∀ (xml : String → XmlFind) (p : PrinterModel) (j : Job)
        (v w : Option String),
        (process_print_job xml tm p { j with datetime_finished := v }).isSome
          = (process_print_job xml tm p
              { j with datetime_finished := w }).isSome) ∧
    (∀ (xml : String → XmlFind) (p : PrinterModel) (j : Job)
        (m0 m1 : String),
        optTruthy j.datetime_started = false →
        isTerminal j.result = true →
        (get_material_name xml p (j.material_0_guid.getD "")).1
          = Except.ok m0 →
        (get_material_name xml p (j.material_1_guid.getD "")).1
          = Except.ok m1 →
        (process_print_job xml tm p j).isSome = true) ∧
    (∀ (xml : String → XmlFind) (p : PrinterModel) (j : Job) (s : String),
        j.datetime_started = some s → s ≠ "" → tm.parse s = none →
        process_print_job xml tm p j = none) := by
  refine ⟨?_, ?_, ?_, ?_, ?_, ?_⟩
  · simp [convert_to_pst]
  · intro s hne hp
    unfold convert_to_pst
    rw [if_neg hne, hp]
  · intro xml p j rec h
    exact ⟨(process_print_job_eq_some h).2.2.2.1,
           (process_print_job_eq_some h).2.2.2.2⟩
  · intro xml p j v w
    exact process_print_job_isSome_congr xml tm p
      { j with datetime_finished := v } { j with datetime_finished := w }
      rfl rfl rfl rfl
  · intro xml p j m0 m1 htr ht hm0 hm1
    have hsd : start_date_opt tm j = some "" := by
      unfold start_date_opt
      rw [if_neg (by simp [htr])]
    unfold process_print_job
    rw [if_pos ht]
    simp [hsd, hm0, hm1]
  · intro xml p j s hjs hne hp
    unfold process_print_job
    by_cases ht : isTerminal j.result = true
    · rw [if_pos ht]
      have hsd : start_date_opt tm j = none := by
        unfold start_date_opt
        rw [hjs]
        have htr : optTruthy (some s) = true := by
          simp [optTruthy, hne]
        rw [if_pos htr]
        simp [hp]
      rw [hsd]
    · rw [if_neg ht]

/-- Witness for the amended C8 theorem: an unparseable non-empty timestamp
is handed back unchanged by the conversion, and a finished job with an
absent start timestamp is not skipped. -/
theorem timestamp_passthrough_witness :
    convert_to_pst tm0 "garbage" = "garbage" ∧
    (process_print_job xml0 tm0 PW2 jW2).isSome = true :=
  ⟨(timestamp_passthrough tm0).2.1 "garbage" (by decide) rfl,
   (timestamp_passthrough tm0).2.2.2.2.1 xml0 PW2 jW2 "Unknown" "Unknown"
     rfl (by decide) rfl rfl⟩

/-- C2 counterexample: a device whose single finished job carries no uuid.
The first run against an absent log emits one record and persists it, but
`_load_existing_uuids` drops falsy uuid values, so the second run against
the updated log re-emits the same record: the second batch is not empty. -/
theorem second_run_reemits_record :
    (collect_logs xml0 tm0 [PN] none false false 1).map
        (fun out1 => out1.batch.length) = some 1 ∧
    ((collect_logs xml0 tm0 [PN] none false false 1).bind (fun out1 =>
        collect_logs xml0 tm0 [PN] out1.save.fs false false 1)).map
        (fun out2 => out2.batch.isEmpty) = some false := by
  exact ⟨rfl, rfl⟩

/-- C2 amended: running the pipeline a second time against unchanged device
histories emits an empty batch (nothing appended, nothing mirrored),
provided every terminal raw job of the histories carries a non-empty uuid
and the initial log is absent or starts with the standard header row. -/
theorem second_run_emits_empty_batch {DT : Type} {xml : String → XmlFind}
    {tm : TimeModel DT} {printers : List PrinterModel}
    {fs0 : Option (List Row)} {sheetsFail : Bool} {fuel : Nat}
    {out : RunResult}
    (hwf : fs0 = none ∨ ∃ rows, fs0 = some (fieldnames :: rows))
    (huuid : ∀ p ∈ printers, ∀ off page, p.history off = some page →
        ∀ j, JobEntry.dict j ∈ page → isTerminal j.result = true →
        j.uuid.getD "" ≠ "")
    (h1 : collect_logs xml tm printers fs0 false sheetsFail fuel = some out) :
    collect_logs xml tm printers out.save.fs false sheetsFail fuel
      = some { batch := [],
               save := { fs := out.save.fs, mirror_attempted := false,
                         mirrored := [] } } := by
  unfold collect_logs at h1
  rw [collect_batch_eq_filter (empty_not_mem_load fs0)] at h1
  cases hsc : sweep_candidates xml tm printers fuel with
  | none => rw [hsc] at h1; exact absurd h1 (by simp)
  | some cand =>
    rw [hsc] at h1
    simp only [Option.map_some'] at h1
    by_cases hempty : (cand.filter (newOnly (load_existing_uuids fs0))).isEmpty
      = true
    · rw [if_pos hempty] at h1
      rw [Option.some.injEq] at h1
      subst h1
      have hnil : cand.filter (newOnly (load_existing_uuids fs0)) = [] :=
        List.isEmpty_iff.mp hempty
      show collect_logs xml tm printers fs0 false sheetsFail fuel = _
      unfold collect_logs
      rw [collect_batch_eq_filter (empty_not_mem_load fs0), hsc]
      simp only [Option.map_some', hnil]
      rfl
    · rw [if_neg hempty] at h1
      rw [Option.some.injEq] at h1
      subst h1
      obtain ⟨rows0, hload0, hfs1⟩ :
          ∃ rows0,
            load_existing_uuids fs0
              = load_existing_uuids (some (fieldnames :: rows0)) ∧
            (save_jobs false sheetsFail fs0
                (cand.filter (newOnly (load_existing_uuids fs0)))).fs
              = some (fieldnames :: (rows0
                  ++ (cand.filter
                        (newOnly (load_existing_uuids fs0))).map row_of)) := by
        rcases hwf with h0 | ⟨rows0, h0⟩
        · refine ⟨[], ?_, ?_⟩
          · rw [h0]; simp [load_existing_uuids, fieldnames_uuid_idx]
          · rw [h0]; simp [save_jobs]
        · refine ⟨rows0, ?_, ?_⟩
          · rw [h0]
          · rw [h0]; simp [save_jobs]
      show collect_logs xml tm printers
          (save_jobs false sheetsFail fs0
            (cand.filter (newOnly (load_existing_uuids fs0)))).fs
          false sheetsFail fuel = _
      rw [hfs1]
      have hcover : ∀ r ∈ cand,
          r.uuid ∈ load_existing_uuids (some (fieldnames :: (rows0
            ++ (cand.filter
                  (newOnly (load_existing_uuids fs0))).map row_of))) := by
        intro r hr
        obtain ⟨p, hp, off2, page, j, hhist, hj, hproc⟩ :=
          mem_sweep_candidates hsc hr
        obtain ⟨ht, huu, _⟩ := process_print_job_eq_some hproc
        have hne : r.uuid ≠ "" := by
          rw [huu]; exact huuid p hp off2 page hhist j hj ht
        rw [load_written_append]
        by_cases hk : r.uuid ∈ load_existing_uuids fs0
        · rw [hload0] at hk
          exact List.mem_append_left _ hk
        · refine List.mem_append_right _ ?_
          have hrb : r ∈ cand.filter (newOnly (load_existing_uuids fs0)) :=
            List.mem_filter.mpr ⟨hr, by simp [newOnly, hk]⟩
          exact uuid_mem_load_rows hrb hne
      have hfe : cand.filter (newOnly (load_existing_uuids
          (some (fieldnames :: (rows0
            ++ (cand.filter
                  (newOnly (load_existing_uuids fs0))).map row_of))))) = [] := by
        refine List.filter_eq_nil_iff.mpr ?_
        intro r hr
        simp only [newOnly, decide_eq_true_eq, not_not]
        exact hcover r hr
      unfold collect_logs
      rw [collect_batch_eq_filter (empty_not_mem_load _), hsc]
      simp only [Option.map_some', hfe]
      rfl

/-- Witness for the amended C2 theorem on a concrete one-device history
whose single finished job has uuid `u1`. -/
theorem second_run_empty_witness :
    collect_logs xml0 tm0 [PW2]
        ({ batch := [recW], save := save_jobs false false none [recW] }
          : RunResult).save.fs false false 1
      = some { batch := [],
               save := { fs := ({ batch := [recW],
                                  save := save_jobs false false none [recW] }
                                : RunResult).save.fs,
                         mirror_attempted := false, mirrored := [] } } := by
  refine second_run_emits_empty_batch (Or.inl rfl) ?_ rfl
  intro p hp off page hpage j hj ht
  have hpw : p = PW2 := by simpa using hp
  subst hpw
  by_cases h0 : off = 0
  · subst h0
    have hpage2 : page = [JobEntry.dict jW2] := by
      have : some [JobEntry.dict jW2] = some page := by
        simpa [PW2] using hpage
      simpa using this.symm
    subst hpage2
    have hjw : j = jW2 := by simpa using hj
    subst hjw
    simp [jW2]
  · exfalso
    rw [show PW2.history off = none from by simp [PW2, h0]] at hpage
    exact Option.noConfusion hpage

end UltimakerLogger
